import Mathlib

/-!
Shallow embedding of the reminder scheduling engine of `src/src-tauri/src/notifications.rs`
(the core of the repository: `Group`, `Instance` with its operations `create_job`,
`add_group`, `generate_id`, `delete_group`, `start`, and the command layer
`new_group` / `delete_group`).

External collaborators are abstracted:
* the cron evaluator (`cron::Schedule::from_str`) becomes a `CronEval` record telling
  which expressions parse and what the parse-error text is;
* the scheduler (`async_cron_scheduler::Scheduler`) becomes an explicit handle table:
  `insert` hands out consecutive `JobId`s and records the captured group snapshot,
  `remove` deletes the entry;
* `nanoid!(7, &alphabet)` becomes a draw of 7 symbols from the 32-symbol alphabet,
  indexed by an ambient random source `rand : Nat → Nat`;
* `tauri::async_runtime::spawn(sched_service)` and the error dialog become an
  `Effects` record counting spawned service loops and listing shown dialogs;
* persistence (`save`, `to_json`) is external and elided.

A Rust `panic!` (process abort) is kept distinct from a returned `Err(String)`:
`PResult` has a `panicked` constructor, and command outcomes are a `CmdStatus`.
-/

namespace Reminders

/-- Opaque job handle of the scheduler (`async_cron_scheduler::JobId`). -/
abbrev JobId := Nat

/-- Model of the external cron evaluator: which expression strings parse
(`cron::Schedule::from_str` succeeding) and the error text otherwise. -/
structure CronEval where
  parses : String → Bool
  errMsg : String → String

/-- `Repeat` from `notifications.rs` (serialization tag only; unused by the core logic). -/
inductive RepeatKind where
  | never
  | daily
deriving DecidableEq, Repr

/-- `Group`: one reminder definition, with the fields of the Rust struct.
`job_id` is the opaque scheduler handle (`None` when not currently scheduled). -/
structure Group where
  title : String
  description : String
  enabled : Bool
  id : String
  job_id : Option JobId
  cron : String
  next_date : Option Nat
deriving DecidableEq, Repr

/-- The scheduler's handle table: `insert` hands out `nextId` and records the
job together with the group snapshot captured by its callback closure. -/
structure Scheduler where
  nextId : Nat
  jobs : List (JobId × Group)
deriving DecidableEq, Repr

/-- World effects outside the store: how many scheduler service loops were
spawned (`tauri::async_runtime::spawn(sched_service)`) and which error dialogs
were shown (`dialog::MessageDialogBuilder`). -/
structure Effects where
  spawned : Nat
  dialogs : List String
deriving DecidableEq, Repr

/-- Outcome of a Rust computation that can `panic!`: `panicked` is a process
abort, distinct from a returned error. -/
inductive PResult (α : Type) where
  | ok : α → PResult α
  | panicked : String → PResult α
deriving DecidableEq, Repr

/-- Status a UI command ends in: `Ok(_)`, `Err(e)`, or a `panic!` that aborted it. -/
inductive CmdStatus where
  | ok : CmdStatus
  | err : String → CmdStatus
  | panicked : String → CmdStatus
deriving DecidableEq, Repr

/-- `Group::create_job`: when the group is enabled, parse its cron expression
(error `"Invalid schedule: …"` on failure) and insert a job whose closure captures
a clone of the group (taken before `job_id` is assigned), then set `self.job_id`;
when disabled, do nothing and return `Ok(())`. Returns the updated group and
scheduler (on error the Rust `&mut` originals are untouched, so the caller keeps
the old values). -/
def Group.create_job (ce : CronEval) (g : Group) (s : Scheduler) :
    Except String (Group × Scheduler) :=
  if g.enabled then
    if ce.parses g.cron then
      let jid := s.nextId
      Except.ok ({ g with job_id := some jid },
        { nextId := s.nextId + 1, jobs := s.jobs ++ [(jid, g)] })
    else
      Except.error ("Invalid schedule: " ++ ce.errMsg g.cron)
  else
    Except.ok (g, s)

/-- `Instance`: the reminder store. `groups` is `file.groups` of the Rust struct
(`RemindersFile` wraps the ordered group list); `app_paths` and persistence are
external and elided. -/
structure Instance where
  groups : List Group
  scheduler : Option Scheduler
  bundle_identifier : String
deriving DecidableEq, Repr

/-- The loop body of `Instance::start`: run `create_job` on every group in order
against the threaded scheduler, keeping a group unchanged when its `create_job`
errors, and collecting the error strings in order. -/
def startFold (ce : CronEval) : List Group → Scheduler →
    List Group × Scheduler × List String
  | [], s => ([], s, [])
  | g :: gs, s =>
    match g.create_job ce s with
    | Except.ok (g', s') =>
      let r := startFold ce gs s'
      (g' :: r.1, r.2.1, r.2.2)
    | Except.error e =>
      let r := startFold ce gs s
      (g :: r.1, r.2.1, e :: r.2.2)

/-- `Instance::start`: launch a fresh scheduler (`Scheduler::launch`), create a job
for every group (collecting per-group errors), show a dialog with the first error
if any, store the scheduler, and spawn the service loop. There is no guard on
`self.scheduler` already being `Some`. -/
def Instance.start (ce : CronEval) (inst : Instance) (fx : Effects) :
    Instance × Effects :=
  let r := startFold ce inst.groups { nextId := 0, jobs := [] }
  let fx1 :=
    match r.2.2.head? with
    | some e => { fx with dialogs := fx.dialogs ++ [e] }
    | none => fx
  ({ inst with groups := r.1, scheduler := some r.2.1 },
   { fx1 with spawned := fx1.spawned + 1 })

/-- `Instance::add_group`: if the scheduler is running, `create_job` the group
(propagating its error with `?`, in which case nothing is pushed) and push it;
if not running, push the group and call `start()`. The third component is the
returned `Result`: `none` is `Ok(())`, `some e` is `Err(e)`. -/
def Instance.add_group (ce : CronEval) (inst : Instance) (g : Group)
    (fx : Effects) : Instance × Effects × Option String :=
  match inst.scheduler with
  | some s =>
    match g.create_job ce s with
    | Except.ok (g', s') =>
      ({ inst with groups := inst.groups ++ [g'], scheduler := some s' }, fx, none)
    | Except.error e => (inst, fx, some e)
  | none =>
    let inst1 : Instance := { inst with groups := inst.groups ++ [g] }
    let r := inst1.start ce fx
    (r.1, r.2, none)

/-- The 32-symbol alphabet of `Instance::generate_id`. -/
def alphabet : List Char :=
  ['a', 'b', 'c', 'd', 'e', 'f', 'g', 'h', 'i', 'j', 'k', 'l', 'm', 'n', 'o', 'p',
   'q', 'r', 's', 't', 'u', 'v', 'w', 'x', 'y', 'z', '2', '3', '4', '5', '6', '7']

/-- `nanoid!(7, &alphabet)`: a fresh 7-symbol id, each symbol an independently
random pick from the alphabet. The ambient random source `rand` is consumed at
positions `attempt * 7 + 0 … attempt * 7 + 6` for the `attempt`-th call. -/
def nanoid7 (rand : Nat → Nat) (attempt : Nat) : String :=
  String.mk ((List.range 7).map (fun i => alphabet.getD (rand (attempt * 7 + i) % 32) 'a'))

/-- The retry loop of `Instance::generate_id`: up to `fuel` candidates starting
at index `attempt`; a candidate colliding with an existing group id is rejected;
exhausting the fuel is the Rust `panic!`. -/
def generate_id_loop (groups : List Group) (rand : Nat → Nat) :
    Nat → Nat → PResult String
  | _, 0 => PResult.panicked "Error generating ID: Generated IDs already exist"
  | attempt, fuel + 1 =>
    let i := nanoid7 rand attempt
    if groups.any (fun g => g.id == i) then
      generate_id_loop groups rand (attempt + 1) fuel
    else
      PResult.ok i

/-- `Instance::generate_id`: `for _ in 0..100` around `nanoid!(7, &alphabet)`,
returning the first candidate not already used by a group, and panicking after
100 collisions. -/
def Instance.generate_id (inst : Instance) (rand : Nat → Nat) : PResult String :=
  generate_id_loop inst.groups rand 0 100

/-- `Instance::delete_group`: with no scheduler, `Vec::remove(index)` (which
panics when `index` is out of range); with a scheduler, index into the groups
(panicking when out of range), remove the job handle if present, then
`Vec::remove(index)`. -/
def Instance.delete_group (inst : Instance) (index : Nat) : PResult Instance :=
  match inst.scheduler with
  | none =>
    if index < inst.groups.length then
      PResult.ok { inst with groups := inst.groups.eraseIdx index }
    else
      PResult.panicked "removal index should be < len"
  | some s =>
    match inst.groups.get? index with
    | none => PResult.panicked "index out of bounds"
    | some g =>
      let s' :=
        match g.job_id with
        | some jid => { s with jobs := s.jobs.filter (fun p => !(p.1 == jid)) }
        | none => s
      PResult.ok { inst with groups := inst.groups.eraseIdx index, scheduler := some s' }

/-- The `new_group` command: overwrite the incoming group's `id` with
`generate_id()` (a `panic!` there aborts the command), then `add_group` it;
`save` and `to_json` are external and elided. -/
def new_group (ce : CronEval) (rand : Nat → Nat) (inst : Instance) (g : Group)
    (fx : Effects) : Instance × Effects × CmdStatus :=
  match inst.generate_id rand with
  | PResult.panicked m => (inst, fx, CmdStatus.panicked m)
  | PResult.ok i =>
    let r := inst.add_group ce { g with id := i } fx
    match r.2.2 with
    | some e => (r.1, r.2.1, CmdStatus.err e)
    | none => (r.1, r.2.1, CmdStatus.ok)

/-- The `delete_group` command: `Instance::delete_group(index)` (a `panic!`
aborts the command with the collection unchanged); `save` / `to_json` elided. -/
def delete_group (inst : Instance) (index : Nat) : Instance × CmdStatus :=
  match inst.delete_group index with
  | PResult.ok inst' => (inst', CmdStatus.ok)
  | PResult.panicked m => (inst, CmdStatus.panicked m)

/-- The mutable fields passed to `update(id, new_fields)`. -/
structure GroupFields where
  title : String
  description : String
  enabled : Bool
  cron : String
  next_date : Option Nat
deriving DecidableEq, Repr

/-- Modelled from the spec: no `update` operation exists in
`src/src-tauri/src/notifications.rs`; this follows spec §4.1 word for word.
It replaces a group's mutable fields; if the cron or enabled flag changed, it
cancels any existing job handle and re-schedules under the new definition
(`id` preserved); changing only unrelated fields does not cancel or recreate
the job; it fails with `NotFound` when no group has the given `id`. Per §7 a
rejected update fails atomically: an enabled new cron that does not parse is
rejected with the invalid-cron error and the store is left unchanged. With the
registry not running the new job handle is `None` (scheduling deferred). -/
def Instance.update_group (ce : CronEval) (inst : Instance) (id : String)
    (f : GroupFields) : Except String Instance :=
  match inst.groups.findIdx? (fun g => g.id == id) with
  | none => Except.error "NotFound"
  | some i =>
    match inst.groups.get? i with
    | none => Except.error "NotFound"
    | some g =>
      let base : Group :=
        { title := f.title, description := f.description, enabled := f.enabled,
          id := g.id, job_id := g.job_id, cron := f.cron, next_date := f.next_date }
      if g.cron == f.cron && g.enabled == f.enabled then
        Except.ok { inst with groups := inst.groups.set i base }
      else
        match inst.scheduler with
        | none =>
          Except.ok { inst with groups := inst.groups.set i { base with job_id := none } }
        | some s =>
          let s1 :=
            match g.job_id with
            | some jid => { s with jobs := s.jobs.filter (fun p => !(p.1 == jid)) }
            | none => s
          if f.enabled then
            if ce.parses f.cron then
              let jid := s1.nextId
              let s2 : Scheduler :=
                { nextId := s1.nextId + 1,
                  jobs := s1.jobs ++ [(jid, { base with job_id := none })] }
              Except.ok { inst with
                groups := inst.groups.set i { base with job_id := some jid },
                scheduler := some s2 }
            else
              Except.error ("Invalid schedule: " ++ ce.errMsg f.cron)
          else
            Except.ok { inst with
              groups := inst.groups.set i { base with job_id := none },
              scheduler := some s1 }

/-- A concrete cron evaluator for closed instances: every expression parses
except the string "bad". -/
def ce0 : CronEval := { parses := fun s => !(s == "bad"), errMsg := fun s => s }

/-- A concrete enabled group with a parsable cron expression. -/
def gWater : Group :=
  { title := "Water plants", description := "water them", enabled := true,
    id := "abcdefg", job_id := none, cron := "0 0 9 * * *", next_date := none }

/-- A concrete enabled group whose cron expression does not parse under `ce0`. -/
def gBad : Group :=
  { title := "Broken", description := "no schedule", enabled := true,
    id := "hijklmn", job_id := none, cron := "bad", next_date := none }

/-- A second concrete enabled group with a parsable cron expression. -/
def gStretch : Group :=
  { title := "Stretch", description := "stand up", enabled := true,
    id := "opqrstu", job_id := none, cron := "0 30 9 * * *", next_date := none }

/-- A store with no groups and no running scheduler. -/
def inst0 : Instance :=
  { groups := [], scheduler := none, bundle_identifier := "app" }

/-- No effects yet: nothing spawned, no dialogs shown. -/
def fx0 : Effects := { spawned := 0, dialogs := [] }

/-- A store with the single group `gWater` and no running scheduler. -/
def instW : Instance :=
  { groups := [gWater], scheduler := none, bundle_identifier := "app" }

/-- A store with `gWater`, `gBad`, `gStretch` in order and no running scheduler. -/
def inst3 : Instance :=
  { groups := [gWater, gBad, gStretch], scheduler := none, bundle_identifier := "app" }

/-- A store holding one group whose id is the only candidate a constant-zero
random source ever produces. -/
def instA : Instance :=
  { groups := [{ gWater with id := "aaaaaaa" }], scheduler := none,
    bundle_identifier := "app" }

/-! ## Basic facts about `create_job` -/

theorem create_job_of_disabled (ce : CronEval) (g : Group) (s : Scheduler)
    (h : g.enabled = false) : g.create_job ce s = Except.ok (g, s) := by
  simp [Group.create_job, h]

theorem create_job_of_valid (ce : CronEval) (g : Group) (s : Scheduler)
    (h1 : g.enabled = true) (h2 : ce.parses g.cron = true) :
    g.create_job ce s = Except.ok ({ g with job_id := some s.nextId },
      { nextId := s.nextId + 1, jobs := s.jobs ++ [(s.nextId, g)] }) := by
  simp [Group.create_job, h1, h2]

theorem create_job_of_invalid (ce : CronEval) (g : Group) (s : Scheduler)
    (h1 : g.enabled = true) (h2 : ce.parses g.cron = false) :
    g.create_job ce s = Except.error ("Invalid schedule: " ++ ce.errMsg g.cron) := by
  simp [Group.create_job, h1, h2]

theorem create_job_ok_id (ce : CronEval) (g g' : Group) (s s' : Scheduler)
    (h : g.create_job ce s = Except.ok (g', s')) : g'.id = g.id := by
  by_cases he : g.enabled = true
  · by_cases hp : ce.parses g.cron = true
    · rw [create_job_of_valid ce g s he hp] at h
      cases h
      rfl
    · rw [create_job_of_invalid ce g s he (by simpa using hp)] at h
      cases h
  · rw [create_job_of_disabled ce g s (by simpa using he)] at h
    cases h
    rfl

/-! ## Basic facts about the `start` loop -/

theorem startFold_nil (ce : CronEval) (s : Scheduler) :
    startFold ce [] s = ([], s, []) := rfl

theorem startFold_cons_ok (ce : CronEval) (g g' : Group) (gs : List Group)
    (s s' : Scheduler) (h : g.create_job ce s = Except.ok (g', s')) :
    startFold ce (g :: gs) s =
      (g' :: (startFold ce gs s').1, (startFold ce gs s').2.1,
       (startFold ce gs s').2.2) := by
  simp [startFold, h]

theorem startFold_cons_error (ce : CronEval) (g : Group) (gs : List Group)
    (s : Scheduler) (e : String) (h : g.create_job ce s = Except.error e) :
    startFold ce (g :: gs) s =
      (g :: (startFold ce gs s).1, (startFold ce gs s).2.1,
       e :: (startFold ce gs s).2.2) := by
  simp [startFold, h]

theorem startFold_map_id (ce : CronEval) :
    ∀ (gs : List Group) (s : Scheduler),
      (startFold ce gs s).1.map Group.id = gs.map Group.id := by
  intro gs
  induction gs with
  | nil => intro s; rfl
  | cons g gs ih =>
    intro s
    cases h : g.create_job ce s with
    | ok p =>
      obtain ⟨g', s'⟩ := p
      rw [startFold_cons_ok ce g g' gs s s' h]
      simp [create_job_ok_id ce g g' s s' h, ih s']
    | error e =>
      rw [startFold_cons_error ce g gs s e h]
      simp [ih s]

theorem startFold_length (ce : CronEval) (gs : List Group) (s : Scheduler) :
    (startFold ce gs s).1.length = gs.length := by
  have h := congrArg List.length (startFold_map_id ce gs s)
  simpa using h

theorem startFold_append (ce : CronEval) :
    ∀ (xs ys : List Group) (s : Scheduler),
      startFold ce (xs ++ ys) s =
        ((startFold ce xs s).1 ++ (startFold ce ys (startFold ce xs s).2.1).1,
         (startFold ce ys (startFold ce xs s).2.1).2.1,
         (startFold ce xs s).2.2 ++ (startFold ce ys (startFold ce xs s).2.1).2.2) := by
  intro xs
  induction xs with
  | nil => intro ys s; rfl
  | cons g xs ih =>
    intro ys s
    cases h : g.create_job ce s with
    | ok p =>
      obtain ⟨g', s'⟩ := p
      rw [List.cons_append, startFold_cons_ok ce g g' (xs ++ ys) s s' h,
        startFold_cons_ok ce g g' xs s s' h, ih ys s']
      simp
    | error e =>
      rw [List.cons_append, startFold_cons_error ce g (xs ++ ys) s e h,
        startFold_cons_error ce g xs s e h, ih ys s]
      simp

theorem startFold_errors (ce : CronEval) :
    ∀ (gs : List Group) (s : Scheduler),
      (startFold ce gs s).2.2 =
        (gs.filter (fun g => g.enabled && !(ce.parses g.cron))).map
          (fun g => "Invalid schedule: " ++ ce.errMsg g.cron) := by
  intro gs
  induction gs with
  | nil => intro s; rfl
  | cons g gs ih =>
    intro s
    by_cases he : g.enabled = true
    · by_cases hp : ce.parses g.cron = true
      · rw [startFold_cons_ok ce g _ gs s _ (create_job_of_valid ce g s he hp)]
        simp [List.filter_cons, he, hp, ih]
      · have hp' : ce.parses g.cron = false := by simpa using hp
        rw [startFold_cons_error ce g gs s _ (create_job_of_invalid ce g s he hp')]
        simp [List.filter_cons, he, hp', ih]
    · have he' : g.enabled = false := by simpa using he
      rw [startFold_cons_ok ce g g gs s s (create_job_of_disabled ce g s he')]
      simp [List.filter_cons, he', ih]

theorem startFold_all_valid (ce : CronEval) :
    ∀ (gs : List Group) (s : Scheduler),
      (∀ g ∈ gs, g.enabled = true ∧ ce.parses g.cron = true) →
      (startFold ce gs s).2.2 = [] ∧
      (∀ g' ∈ (startFold ce gs s).1, g'.job_id.isSome = true) ∧
      (startFold ce gs s).2.1.jobs.length = s.jobs.length + gs.length := by
  intro gs
  induction gs with
  | nil => intro s _; simp [startFold_nil]
  | cons g gs ih =>
    intro s h
    obtain ⟨⟨he, hp⟩, hrest⟩ := List.forall_mem_cons.mp h
    rw [startFold_cons_ok ce g _ gs s _ (create_job_of_valid ce g s he hp)]
    obtain ⟨ih1, ih2, ih3⟩ :=
      ih { nextId := s.nextId + 1, jobs := s.jobs ++ [(s.nextId, g)] } hrest
    refine ⟨ih1, ?_, ?_⟩
    · intro g' hg'
      rcases List.mem_cons.mp hg' with rfl | hmem
      · rfl
      · exact ih2 g' hmem
    · rw [ih3]
      show (s.jobs ++ [(s.nextId, g)]).length + gs.length =
        s.jobs.length + (g :: gs).length
      simp
      omega

theorem startFold_all_disabled (ce : CronEval) :
    ∀ (gs : List Group) (s : Scheduler),
      (∀ g ∈ gs, g.enabled = false) → startFold ce gs s = (gs, s, []) := by
  intro gs
  induction gs with
  | nil => intro s _; rfl
  | cons g gs ih =>
    intro s h
    obtain ⟨hg, hrest⟩ := List.forall_mem_cons.mp h
    rw [startFold_cons_ok ce g g gs s s (create_job_of_disabled ce g s hg), ih s hrest]

/-! ## Basic facts about id generation -/

theorem nanoid7_length (rand : Nat → Nat) (attempt : Nat) :
    (nanoid7 rand attempt).length = 7 := rfl

theorem nanoid7_mem_alphabet (rand : Nat → Nat) (attempt : Nat) :
    ∀ c ∈ (nanoid7 rand attempt).data, c ∈ alphabet := by
  intro c hc
  have hc' : c ∈ (List.range 7).map
      (fun i => alphabet.getD (rand (attempt * 7 + i) % 32) 'a') := hc
  obtain ⟨i, _, rfl⟩ := List.mem_map.mp hc'
  have hlt : rand (attempt * 7 + i) % 32 < alphabet.length := by
    have h32 : alphabet.length = 32 := rfl
    rw [h32]
    exact Nat.mod_lt _ (by norm_num)
  rw [List.getD_eq_getElem alphabet 'a' hlt]
  exact List.getElem_mem hlt

theorem generate_id_loop_ok_fresh (groups : List Group) (rand : Nat → Nat) :
    ∀ (fuel attempt : Nat) (res : String),
      generate_id_loop groups rand attempt fuel = PResult.ok res →
      groups.any (fun g => g.id == res) = false := by
  intro fuel
  induction fuel with
  | zero => intro a res h; cases h
  | succ fuel ih =>
    intro a res h
    rw [generate_id_loop] at h
    by_cases hc : groups.any (fun g => g.id == nanoid7 rand a) = true
    · rw [if_pos hc] at h
      exact ih (a + 1) res h
    · rw [if_neg hc] at h
      cases h
      simpa using hc

theorem generate_id_loop_panics (groups : List Group) (rand : Nat → Nat) :
    ∀ (fuel attempt : Nat),
      (∀ j, attempt ≤ j → j < attempt + fuel →
        groups.any (fun g => g.id == nanoid7 rand j) = true) →
      generate_id_loop groups rand attempt fuel =
        PResult.panicked "Error generating ID: Generated IDs already exist" := by
  intro fuel
  induction fuel with
  | zero => intro a _; rfl
  | succ fuel ih =>
    intro a h
    have h0 : groups.any (fun g => g.id == nanoid7 rand a) = true :=
      h a le_rfl (by omega)
    rw [generate_id_loop, if_pos h0]
    exact ih (a + 1) (fun j hj1 hj2 => h j (by omega) (by omega))

theorem generate_id_loop_first_fresh (groups : List Group) (rand : Nat → Nat) :
    ∀ (fuel attempt k : Nat), attempt ≤ k → k < attempt + fuel →
      (∀ j, attempt ≤ j → j < k →
        groups.any (fun g => g.id == nanoid7 rand j) = true) →
      groups.any (fun g => g.id == nanoid7 rand k) = false →
      generate_id_loop groups rand attempt fuel = PResult.ok (nanoid7 rand k) := by
  intro fuel
  induction fuel with
  | zero => intro a k h1 h2 _ _; omega
  | succ fuel ih =>
    intro a k h1 h2 hcoll hfresh
    rcases Nat.eq_or_lt_of_le h1 with rfl | hlt
    · rw [generate_id_loop, if_neg (by simp [hfresh])]
    · have ha : groups.any (fun g => g.id == nanoid7 rand a) = true :=
        hcoll a le_rfl hlt
      rw [generate_id_loop, if_pos ha]
      exact ih (a + 1) k (by omega) (by omega)
        (fun j hj1 hj2 => hcoll j (by omega) hj2) hfresh

theorem generate_id_loop_ok_shape (groups : List Group) (rand : Nat → Nat) :
    ∀ (fuel attempt : Nat) (res : String),
      generate_id_loop groups rand attempt fuel = PResult.ok res →
      ∃ k, res = nanoid7 rand k := by
  intro fuel
  induction fuel with
  | zero => intro a res h; cases h
  | succ fuel ih =>
    intro a res h
    rw [generate_id_loop] at h
    by_cases hc : groups.any (fun g => g.id == nanoid7 rand a) = true
    · rw [if_pos hc] at h
      exact ih (a + 1) res h
    · rw [if_neg hc] at h
      cases h
      exact ⟨a, rfl⟩

/-! ## Projections of `Instance.start` -/

theorem start_fst (ce : CronEval) (inst : Instance) (fx : Effects) :
    (inst.start ce fx).1 =
      { inst with
        groups := (startFold ce inst.groups { nextId := 0, jobs := [] }).1,
        scheduler := some (startFold ce inst.groups { nextId := 0, jobs := [] }).2.1 } :=
  rfl

theorem start_spawned (ce : CronEval) (inst : Instance) (fx : Effects) :
    (inst.start ce fx).2.spawned = fx.spawned + 1 := by
  simp only [Instance.start]
  cases h : (startFold ce inst.groups { nextId := 0, jobs := [] }).2.2.head? <;>
    simp [h]

theorem start_dialogs_of_errors_nil (ce : CronEval) (inst : Instance) (fx : Effects)
    (h : (startFold ce inst.groups { nextId := 0, jobs := [] }).2.2 = []) :
    (inst.start ce fx).2.dialogs = fx.dialogs := by
  simp only [Instance.start, h]
  rfl

theorem start_dialogs_of_errors_cons (ce : CronEval) (inst : Instance) (fx : Effects)
    (e : String) (es : List String)
    (h : (startFold ce inst.groups { nextId := 0, jobs := [] }).2.2 = e :: es) :
    (inst.start ce fx).2.dialogs = fx.dialogs ++ [e] := by
  simp only [Instance.start, h]
  rfl

/-! ## The claims -/

/-- C1, counterexample: the claim says `start()` is a no-op when the registry
is already running and never creates a second background loop. With `instW`
started once, the registry is running (`scheduler` is `Some`), yet a second
`start()` still spawns another scheduler service loop — two loops in total. -/
theorem C1_start_not_idempotent_cex :
    (instW.start ce0 fx0).1.scheduler.isSome = true ∧
    ((instW.start ce0 fx0).1.start ce0 (instW.start ce0 fx0).2).2.spawned = 2 :=
  ⟨rfl, rfl⟩

/-- C1 amended: `start()` has no idempotent guard. Every call — also when the
registry is already running — builds a fresh scheduler from the whole group
list, installs it over the previous one, and spawns one more background
service loop. -/
theorem C1_start_always_spawns (ce : CronEval) (inst : Instance) (fx : Effects) :
    (inst.start ce fx).2.spawned = fx.spawned + 1 ∧
    (inst.start ce fx).1.scheduler =
      some (startFold ce inst.groups { nextId := 0, jobs := [] }).2.1 :=
  ⟨start_spawned ce inst fx, rfl⟩

/-- C5, counterexample: the claim says deleting a nonexistent group returns an
`IndexOutOfRange` / `NotFound` error rather than crashing. On the empty store,
`delete_group 0` hits the `Vec::remove` out-of-bounds panic — the command
aborts, it does not return an error. -/
theorem C5_delete_oob_panics_cex :
    delete_group inst0 0 =
      (inst0, CmdStatus.panicked "removal index should be < len") :=
  rfl

/-- C5 amended: for an index at or beyond the number of groups,
`delete_group(index)` panics (process abort) instead of returning an error; for
a valid index with the registry running it removes the job handle (if present)
from the scheduler and then removes the group, and with the registry not
running it only removes the group. -/
theorem C5_delete_group_semantics :
    (∀ (inst : Instance) (i : Nat), inst.groups.length ≤ i →
      ∃ m, inst.delete_group i = PResult.panicked m) ∧
    (∀ (inst : Instance) (i : Nat) (s : Scheduler), inst.scheduler = some s →
      ∀ h : i < inst.groups.length,
      inst.delete_group i = PResult.ok { inst with
        groups := inst.groups.eraseIdx i,
        scheduler := some
          (match (inst.groups.get ⟨i, h⟩).job_id with
           | some jid => { s with jobs := s.jobs.filter (fun p => !(p.1 == jid)) }
           | none => s) }) ∧
    (∀ (inst : Instance) (i : Nat), inst.scheduler = none →
      i < inst.groups.length →
      inst.delete_group i =
        PResult.ok { inst with groups := inst.groups.eraseIdx i }) := by
  refine ⟨?_, ?_, ?_⟩
  · intro inst i hlen
    cases hs : inst.scheduler with
    | none =>
      refine ⟨"removal index should be < len", ?_⟩
      simp [Instance.delete_group, hs]
      omega
    | some s =>
      refine ⟨"index out of bounds", ?_⟩
      simp [Instance.delete_group, hs, List.getElem?_eq_none hlen]
  · intro inst i s hs h
    rw [Instance.delete_group, hs, List.get?_eq_get h]
  · intro inst i hs h
    simp [Instance.delete_group, hs, h]

/-- C5 witness: on the one-group store with no scheduler, deleting index 0
removes the group. -/
theorem C5_delete_group_semantics_witness :
    instW.delete_group 0 =
      PResult.ok { instW with groups := instW.groups.eraseIdx 0 } :=
  C5_delete_group_semantics.2.2 instW 0 rfl (by decide)

/-- C6, counterexample: the claim says that with the registry not running,
`add(group)` only appends and defers all scheduling. On the empty, not-started
store, adding `gWater` starts the registry itself: the scheduler becomes
`Some`, a service loop is spawned, and a job is created for the new group. -/
theorem C6_add_not_deferring_cex :
    inst0.scheduler = none ∧
    (inst0.add_group ce0 gWater fx0).1.scheduler.isSome = true ∧
    (inst0.add_group ce0 gWater fx0).2.1.spawned = 1 ∧
    (inst0.add_group ce0 gWater fx0).1.groups.map Group.job_id = [some 0] :=
  ⟨rfl, rfl, rfl, rfl⟩

/-- C6 amended: when the registry is not running, `add(group)` appends the
group and then immediately calls `start()` itself — the registry is launched
on the spot and every enabled group with a parsable cron (the new one
included) is scheduled; nothing is deferred to a later explicit `start()`. -/
theorem C6_add_starts_registry (ce : CronEval) (inst : Instance) (g : Group)
    (fx : Effects) (h : inst.scheduler = none) :
    inst.add_group ce g fx =
      ((({ inst with groups := inst.groups ++ [g] } : Instance).start ce fx).1,
       (({ inst with groups := inst.groups ++ [g] } : Instance).start ce fx).2,
       none) := by
  simp [Instance.add_group, h]

/-- C6 witness: adding `gWater` to the empty, not-started store is exactly an
append followed by `start()`. -/
theorem C6_add_starts_registry_witness :
    inst0.add_group ce0 gWater fx0 =
      ((({ inst0 with groups := inst0.groups ++ [gWater] } : Instance).start ce0 fx0).1,
       (({ inst0 with groups := inst0.groups ++ [gWater] } : Instance).start ce0 fx0).2,
       none) :=
  C6_add_starts_registry ce0 inst0 gWater fx0 rfl

/-- C7, counterexample: the claim says exhausting the 100-retry cap surfaces as
a hard error at the API boundary rather than aborting the process. With a
random source whose every candidate is "aaaaaaa" and a store already holding
that id, `new_group` ends in the `panic!` — a process abort, not an `Err`. -/
theorem C7_exhaustion_panics_cex :
    new_group ce0 (fun _ => 0) instA gWater fx0 =
      (instA, fx0,
       CmdStatus.panicked "Error generating ID: Generated IDs already exist") :=
  rfl

/-- C7 amended: id generation retries at most the bounded constant 100 — the
first non-colliding candidate among the first 100 is returned, and if all 100
collide the operation `panic!`s (process abort) instead of returning an
`IdGenerationExhausted`-style error. -/
theorem C7_retry_cap (inst : Instance) (rand : Nat → Nat) :
    ((∀ n, n < 100 → inst.groups.any (fun g => g.id == nanoid7 rand n) = true) →
      inst.generate_id rand =
        PResult.panicked "Error generating ID: Generated IDs already exist") ∧
    (∀ k, k < 100 →
      (∀ j, j < k → inst.groups.any (fun g => g.id == nanoid7 rand j) = true) →
      inst.groups.any (fun g => g.id == nanoid7 rand k) = false →
      inst.generate_id rand = PResult.ok (nanoid7 rand k)) := by
  constructor
  · intro h
    exact generate_id_loop_panics inst.groups rand 100 0
      (fun j _ hj2 => h j (by omega))
  · intro k hk hcoll hfresh
    exact generate_id_loop_first_fresh inst.groups rand 100 0 k (Nat.zero_le k)
      (by omega) (fun j _ hj2 => hcoll j hj2) hfresh

/-- C7 witness: all 100 candidates of the constant-zero random source collide
with the stored id "aaaaaaa", so generation panics. -/
theorem C7_retry_cap_witness :
    instA.generate_id (fun _ => 0) =
      PResult.panicked "Error generating ID: Generated IDs already exist" :=
  (C7_retry_cap instA (fun _ => 0)).1 (fun _ _ => rfl)

/-- C2, counterexample: the claim says an enabled group with an unparsable cron
fails `add` AND is still appended. With the registry running (empty store just
started), adding `gBad` returns the invalid-cron error and the collection stays
empty — the failure does prevent insertion. -/
theorem C2_invalid_cron_not_inserted_cex :
    ((inst0.start ce0 fx0).1.add_group ce0 gBad fx0).2.2 =
      some "Invalid schedule: bad" ∧
    ((inst0.start ce0 fx0).1.add_group ce0 gBad fx0).1.groups = [] :=
  ⟨rfl, rfl⟩

/-- C2 amended: for an enabled group whose cron does not parse, `add(group)`
fails with the invalid-cron error and does NOT append the group when the
registry is running; when the registry is not running, the group IS appended
and `add` returns no error — the failure is surfaced as an error dialog by the
`start()` that `add` itself triggers (stated here when no earlier group
contributes an error). -/
theorem C2_invalid_cron_add (ce : CronEval) (inst : Instance) (g : Group)
    (fx : Effects) (he : g.enabled = true) (hp : ce.parses g.cron = false) :
    (∀ s, inst.scheduler = some s →
      inst.add_group ce g fx =
        (inst, fx, some ("Invalid schedule: " ++ ce.errMsg g.cron))) ∧
    (inst.scheduler = none →
      (∀ g' ∈ inst.groups, g'.enabled = true → ce.parses g'.cron = true) →
      (inst.add_group ce g fx).2.2 = none ∧
      (inst.add_group ce g fx).1.groups.map Group.id =
        (inst.groups ++ [g]).map Group.id ∧
      (inst.add_group ce g fx).2.1.dialogs =
        fx.dialogs ++ ["Invalid schedule: " ++ ce.errMsg g.cron]) := by
  constructor
  · intro s hs
    simp [Instance.add_group, hs, create_job_of_invalid ce g s he hp]
  · intro hs hvalid
    have hadd : inst.add_group ce g fx =
        ((({ inst with groups := inst.groups ++ [g] } : Instance).start ce fx).1,
         (({ inst with groups := inst.groups ++ [g] } : Instance).start ce fx).2,
         none) := by
      simp [Instance.add_group, hs]
    have h1 : inst.groups.filter (fun x => x.enabled && !(ce.parses x.cron)) = [] := by
      refine List.filter_eq_nil_iff.mpr (fun x hx => ?_)
      simpa using hvalid x hx
    have h2 : [g].filter (fun x => x.enabled && !(ce.parses x.cron)) = [g] := by
      simp [List.filter_cons, he, hp]
    have herr : (startFold ce (inst.groups ++ [g]) { nextId := 0, jobs := [] }).2.2 =
        ("Invalid schedule: " ++ ce.errMsg g.cron) :: [] := by
      rw [startFold_errors, List.filter_append, h1, h2]
      simp
    rw [hadd]
    refine ⟨rfl, ?_, ?_⟩
    · exact startFold_map_id ce (inst.groups ++ [g]) { nextId := 0, jobs := [] }
    · exact start_dialogs_of_errors_cons ce
        { inst with groups := inst.groups ++ [g] } fx
        ("Invalid schedule: " ++ ce.errMsg g.cron) [] herr

/-- C2 witness: on the just-started empty store (registry running), adding the
enabled group `gBad` with unparsable cron is rejected without insertion. -/
theorem C2_invalid_cron_add_witness :
    (inst0.start ce0 fx0).1.add_group ce0 gBad fx0 =
      ((inst0.start ce0 fx0).1, fx0,
       some ("Invalid schedule: " ++ ce0.errMsg gBad.cron)) :=
  (C2_invalid_cron_add ce0 (inst0.start ce0 fx0).1 gBad fx0 rfl rfl).1
    { nextId := 0, jobs := [] } rfl

/-- C3: every id handed out by `generate_id` is 7 symbols long, each symbol
from the fixed 32-symbol alphabet, and does not collide with any stored id;
uniqueness of ids over the store is preserved by `new_group`, by a successful
`delete_group`, and by `start` (which never changes ids). -/
theorem C3_ids_wellformed_unique :
    (∀ (inst : Instance) (rand : Nat → Nat) (s : String),
      inst.generate_id rand = PResult.ok s →
      s.length = 7 ∧ (∀ c ∈ s.data, c ∈ alphabet) ∧
        ∀ g ∈ inst.groups, g.id ≠ s) ∧
    (∀ (ce : CronEval) (rand : Nat → Nat) (inst : Instance) (g : Group)
       (fx : Effects),
      (inst.groups.map Group.id).Nodup →
      ((new_group ce rand inst g fx).1.groups.map Group.id).Nodup) ∧
    (∀ (inst : Instance) (idx : Nat) (inst' : Instance),
      inst.delete_group idx = PResult.ok inst' →
      (inst.groups.map Group.id).Nodup → (inst'.groups.map Group.id).Nodup) ∧
    (∀ (ce : CronEval) (inst : Instance) (fx : Effects),
      (inst.start ce fx).1.groups.map Group.id = inst.groups.map Group.id) := by
  refine ⟨?_, ?_, ?_, ?_⟩
  · intro inst rand s h
    obtain ⟨k, rfl⟩ := generate_id_loop_ok_shape inst.groups rand 100 0 _ h
    refine ⟨nanoid7_length rand k, nanoid7_mem_alphabet rand k, ?_⟩
    have hfresh := generate_id_loop_ok_fresh inst.groups rand 100 0 _ h
    intro g hg
    have hne := List.any_eq_false.mp hfresh g hg
    simpa using hne
  · intro ce rand inst g fx hnodup
    cases hgen : inst.generate_id rand with
    | panicked m => simpa [new_group, hgen] using hnodup
    | ok i =>
      have hfresh : ∀ g0 ∈ inst.groups, g0.id ≠ i := by
        have hf := generate_id_loop_ok_fresh inst.groups rand 100 0 i hgen
        intro g0 hg0
        have hne := List.any_eq_false.mp hf g0 hg0
        simpa using hne
      have hnotmem : i ∉ inst.groups.map Group.id := by
        intro hmem
        obtain ⟨g0, hg0, hgid⟩ := List.mem_map.mp hmem
        exact hfresh g0 hg0 hgid
      have happend : ((inst.groups.map Group.id) ++ [i]).Nodup := by
        rw [List.nodup_append]
        exact ⟨hnodup, List.nodup_singleton i, List.disjoint_singleton.mpr hnotmem⟩
      cases hs : inst.scheduler with
      | some s =>
        cases hc : Group.create_job ce { g with id := i } s with
        | ok p =>
          obtain ⟨g', s'⟩ := p
          have hid : g'.id = i := create_job_ok_id ce { g with id := i } g' s s' hc
          simp only [new_group, hgen, Instance.add_group, hs, hc]
          simpa [List.map_append, hid] using happend
        | error e =>
          simpa only [new_group, hgen, Instance.add_group, hs, hc] using hnodup
      | none =>
        simp only [new_group, hgen, Instance.add_group, hs]
        have h2 : ((Instance.mk (inst.groups ++ [{ g with id := i }]) none
              inst.bundle_identifier).start ce fx).1.groups.map Group.id =
            inst.groups.map Group.id ++ [i] := by
          have hmap := startFold_map_id ce (inst.groups ++ [{ g with id := i }])
            { nextId := 0, jobs := [] }
          simpa [List.map_append] using hmap
        simpa [h2] using happend
  · intro inst idx inst' h hnodup
    have hsub : ∀ gs : List Group, inst'.groups = gs.eraseIdx idx →
        (gs.map Group.id).Nodup → (inst'.groups.map Group.id).Nodup := by
      intro gs hgs hn
      rw [hgs]
      exact List.Nodup.sublist
        (List.Sublist.map Group.id (List.eraseIdx_sublist gs idx)) hn
    cases hs : inst.scheduler with
    | none =>
      rw [Instance.delete_group, hs] at h
      by_cases hlt : idx < inst.groups.length
      · rw [if_pos hlt] at h
        cases h
        exact hsub inst.groups rfl hnodup
      · rw [if_neg hlt] at h
        cases h
    | some s =>
      rw [Instance.delete_group, hs] at h
      cases hget : inst.groups.get? idx with
      | none =>
        rw [hget] at h
        cases h
      | some g =>
        rw [hget] at h
        cases h
        exact hsub inst.groups rfl hnodup
  · intro ce inst fx
    exact startFold_map_id ce inst.groups { nextId := 0, jobs := [] }

/-- C3 witness: on the empty store, the identity random source yields the id
"abcdefg": 7 symbols, all in the alphabet, colliding with nothing. -/
theorem C3_ids_wellformed_unique_witness :
    "abcdefg".length = 7 ∧ (∀ c ∈ "abcdefg".data, c ∈ alphabet) ∧
      ∀ g ∈ inst0.groups, g.id ≠ "abcdefg" :=
  C3_ids_wellformed_unique.1 inst0 (fun n => n) "abcdefg" rfl

/-- C4: `start()` on a group list split as `pre ++ bad :: post`, where every
group in `pre` and `post` is enabled with a parsable cron and `bad` is enabled
with an unparsable one, schedules all of `pre` and `post` (their groups carry
job handles and the scheduler holds exactly that many jobs), keeps the store
usable (scheduler installed), and reports exactly one error — the one from
`bad` — via the dialog. -/
theorem C4_start_error_collection (ce : CronEval) (fx : Effects) (inst : Instance)
    (pre post : List Group) (bad : Group)
    (hsplit : inst.groups = pre ++ bad :: post)
    (hpre : ∀ g ∈ pre, g.enabled = true ∧ ce.parses g.cron = true)
    (hpost : ∀ g ∈ post, g.enabled = true ∧ ce.parses g.cron = true)
    (hbad1 : bad.enabled = true) (hbad2 : ce.parses bad.cron = false) :
    ∃ pre' post' s,
      (inst.start ce fx).1.groups = pre' ++ bad :: post' ∧
      pre'.length = pre.length ∧ post'.length = post.length ∧
      (∀ g ∈ pre', g.job_id.isSome = true) ∧
      (∀ g ∈ post', g.job_id.isSome = true) ∧
      (inst.start ce fx).1.scheduler = some s ∧
      s.jobs.length = pre.length + post.length ∧
      (inst.start ce fx).2.dialogs =
        fx.dialogs ++ ["Invalid schedule: " ++ ce.errMsg bad.cron] := by
  have hcons := startFold_cons_error ce bad post
    (startFold ce pre { nextId := 0, jobs := [] }).2.1
    ("Invalid schedule: " ++ ce.errMsg bad.cron)
    (create_job_of_invalid ce bad (startFold ce pre { nextId := 0, jobs := [] }).2.1
      hbad1 hbad2)
  have hgroups : (startFold ce inst.groups { nextId := 0, jobs := [] }).1 =
      (startFold ce pre { nextId := 0, jobs := [] }).1 ++
        bad :: (startFold ce post
          (startFold ce pre { nextId := 0, jobs := [] }).2.1).1 := by
    rw [hsplit, startFold_append, hcons]
  have hsched : (startFold ce inst.groups { nextId := 0, jobs := [] }).2.1 =
      (startFold ce post (startFold ce pre { nextId := 0, jobs := [] }).2.1).2.1 := by
    rw [hsplit, startFold_append, hcons]
  have herrs : (startFold ce inst.groups { nextId := 0, jobs := [] }).2.2 =
      (startFold ce pre { nextId := 0, jobs := [] }).2.2 ++
        ("Invalid schedule: " ++ ce.errMsg bad.cron) ::
          (startFold ce post (startFold ce pre { nextId := 0, jobs := [] }).2.1).2.2 := by
    rw [hsplit, startFold_append, hcons]
  obtain ⟨haErr, haMem, haJobs⟩ :=
    startFold_all_valid ce pre { nextId := 0, jobs := [] } hpre
  obtain ⟨hbErr, hbMem, hbJobs⟩ :=
    startFold_all_valid ce post (startFold ce pre { nextId := 0, jobs := [] }).2.1 hpost
  refine ⟨(startFold ce pre { nextId := 0, jobs := [] }).1,
    (startFold ce post (startFold ce pre { nextId := 0, jobs := [] }).2.1).1,
    (startFold ce post (startFold ce pre { nextId := 0, jobs := [] }).2.1).2.1,
    hgroups, startFold_length ce pre _, startFold_length ce post _,
    haMem, hbMem, congrArg some hsched, ?_, ?_⟩
  · rw [hbJobs, haJobs]
    simp
  · have herrs2 : (startFold ce inst.groups { nextId := 0, jobs := [] }).2.2 =
        ("Invalid schedule: " ++ ce.errMsg bad.cron) :: [] := by
      rw [herrs, haErr, hbErr]
      simp
    exact start_dialogs_of_errors_cons ce inst fx _ [] herrs2

/-- C4 witness: starting the three-group store `[gWater, gBad, gStretch]`
schedules the two valid groups and shows exactly the one dialog for `gBad`. -/
theorem C4_start_error_collection_witness :
    ∃ pre' post' s,
      (inst3.start ce0 fx0).1.groups = pre' ++ gBad :: post' ∧
      pre'.length = [gWater].length ∧ post'.length = [gStretch].length ∧
      (∀ g ∈ pre', g.job_id.isSome = true) ∧
      (∀ g ∈ post', g.job_id.isSome = true) ∧
      (inst3.start ce0 fx0).1.scheduler = some s ∧
      s.jobs.length = [gWater].length + [gStretch].length ∧
      (inst3.start ce0 fx0).2.dialogs =
        fx0.dialogs ++ ["Invalid schedule: " ++ ce0.errMsg gBad.cron] :=
  C4_start_error_collection ce0 fx0 inst3 [gWater] [gStretch] gBad rfl
    (by decide) (by decide) rfl rfl

/-- C9: the `new_group` command ignores any caller-supplied id — its result is
identical whatever id the incoming group carries — and when the command
succeeds, the group appended at the end of the collection carries exactly the
freshly generated id. -/
theorem C9_new_group_overwrites_id :
    (∀ (ce : CronEval) (rand : Nat → Nat) (inst : Instance) (g : Group)
       (fx : Effects) (s : String),
      new_group ce rand inst { g with id := s } fx = new_group ce rand inst g fx) ∧
    (∀ (ce : CronEval) (rand : Nat → Nat) (inst : Instance) (g : Group)
       (fx : Effects) (i : String),
      inst.generate_id rand = PResult.ok i →
      (new_group ce rand inst g fx).2.2 = CmdStatus.ok →
      ((new_group ce rand inst g fx).1.groups.map Group.id).getLast? = some i) := by
  constructor
  · intro ce rand inst g fx s
    cases hgen : inst.generate_id rand with
    | panicked m => simp [new_group, hgen]
    | ok i => simp [new_group, hgen]
  · intro ce rand inst g fx i hgen hok
    cases hs : inst.scheduler with
    | some s =>
      cases hc : Group.create_job ce { g with id := i } s with
      | ok p =>
        obtain ⟨g', s'⟩ := p
        have hid : g'.id = i := create_job_ok_id ce { g with id := i } g' s s' hc
        simp only [new_group, hgen, Instance.add_group, hs, hc]
        rw [List.map_append]
        simp only [List.map_cons, List.map_nil, hid]
        exact List.getLast?_concat _
      | error e =>
        simp only [new_group, hgen, Instance.add_group, hs, hc] at hok
        cases hok
    | none =>
      simp only [new_group, hgen, Instance.add_group, hs]
      have h2 : ((Instance.mk (inst.groups ++ [{ g with id := i }]) none
            inst.bundle_identifier).start ce fx).1.groups.map Group.id =
          inst.groups.map Group.id ++ [i] := by
        have hmap := startFold_map_id ce (inst.groups ++ [{ g with id := i }])
          { nextId := 0, jobs := [] }
        simpa [List.map_append] using hmap
      rw [h2]
      exact List.getLast?_concat _

/-- C9 witness: on the empty store with the constant-zero random source,
`new_group` stores the group under the generated id "aaaaaaa", not under the
caller-supplied "abcdefg". -/
theorem C9_new_group_overwrites_id_witness :
    ((new_group ce0 (fun _ => 0) inst0 gWater fx0).1.groups.map Group.id).getLast? =
      some "aaaaaaa" :=
  C9_new_group_overwrites_id.2 ce0 (fun _ => 0) inst0 gWater fx0 "aaaaaaa" rfl rfl

/-- C10: the cron expression is only validated for enabled groups. A disabled
group's `create_job` succeeds without consulting the parser — group (its
`job_id` included) and scheduler are returned untouched; `add` with the
registry running appends such a group unchanged with no error; and `start`
over a store of disabled groups changes no group and shows no dialog. -/
theorem C10_disabled_skips_validation :
    (∀ (ce : CronEval) (g : Group) (s : Scheduler), g.enabled = false →
      g.create_job ce s = Except.ok (g, s)) ∧
    (∀ (ce : CronEval) (inst : Instance) (g : Group) (fx : Effects) (s : Scheduler),
      inst.scheduler = some s → g.enabled = false →
      inst.add_group ce g fx =
        ({ inst with groups := inst.groups ++ [g] }, fx, none)) ∧
    (∀ (ce : CronEval) (inst : Instance) (fx : Effects),
      (∀ g ∈ inst.groups, g.enabled = false) →
      (inst.start ce fx).2.dialogs = fx.dialogs ∧
      (inst.start ce fx).1.groups = inst.groups) := by
  refine ⟨create_job_of_disabled, ?_, ?_⟩
  · intro ce inst g fx s hs hg
    cases inst with
    | mk gs sch b =>
      cases hs
      simp [Instance.add_group, create_job_of_disabled ce g s hg]
  · intro ce inst fx h
    have hall := startFold_all_disabled ce inst.groups { nextId := 0, jobs := [] } h
    constructor
    · apply start_dialogs_of_errors_nil
      rw [hall]
    · show (startFold ce inst.groups { nextId := 0, jobs := [] }).1 = inst.groups
      rw [hall]

/-- C10 witness: the disabled copy of `gBad` (unparsable cron) passes
`create_job` untouched, with no job inserted. -/
theorem C10_disabled_skips_validation_witness :
    Group.create_job ce0 { gBad with enabled := false } { nextId := 0, jobs := [] } =
      Except.ok ({ gBad with enabled := false }, { nextId := 0, jobs := [] }) :=
  C10_disabled_skips_validation.1 ce0 { gBad with enabled := false }
    { nextId := 0, jobs := [] } rfl

/-- C8 (against the spec-modelled `update_group`, the operation being absent
from the source): update fails with `NotFound` when no group carries the id;
with the id found, changing only fields other than cron/enabled replaces the
fields in place, preserving the id and the job handle and leaving the
scheduler untouched; and with the registry running, changing the cron (group
enabled, new cron parsable, old handle present) cancels the old job handle and
inserts a fresh job under the new definition, the group keeping its id and
receiving the new handle. -/
theorem C8_update_group_semantics :
    (∀ (ce : CronEval) (inst : Instance) (id : String) (f : GroupFields),
      (∀ g ∈ inst.groups, g.id ≠ id) →
      inst.update_group ce id f = Except.error "NotFound") ∧
    (∀ (ce : CronEval) (inst : Instance) (id : String) (f : GroupFields)
       (i : Nat) (g : Group),
      inst.groups.findIdx? (fun g0 => g0.id == id) = some i →
      inst.groups.get? i = some g →
      f.cron = g.cron → f.enabled = g.enabled →
      inst.update_group ce id f = Except.ok { inst with
        groups := inst.groups.set i
          { title := f.title, description := f.description, enabled := f.enabled,
            id := g.id, job_id := g.job_id, cron := f.cron,
            next_date := f.next_date } }) ∧
    (∀ (ce : CronEval) (inst : Instance) (id : String) (f : GroupFields)
       (i : Nat) (g : Group) (s : Scheduler) (jid : JobId),
      inst.groups.findIdx? (fun g0 => g0.id == id) = some i →
      inst.groups.get? i = some g →
      f.cron ≠ g.cron → f.enabled = true → ce.parses f.cron = true →
      inst.scheduler = some s → g.job_id = some jid →
      inst.update_group ce id f = Except.ok { inst with
        groups := inst.groups.set i
          { title := f.title, description := f.description, enabled := f.enabled,
            id := g.id, job_id := some s.nextId, cron := f.cron,
            next_date := f.next_date },
        scheduler := some (Scheduler.mk (s.nextId + 1)
          ((s.jobs.filter (fun p => !(p.1 == jid))) ++
            [(s.nextId,
              Group.mk f.title f.description f.enabled g.id none f.cron
                f.next_date)])) }) := by
  refine ⟨?_, ?_, ?_⟩
  · intro ce inst id f h
    have hnone : inst.groups.findIdx? (fun g => g.id == id) = none :=
      List.findIdx?_eq_none_iff.mpr
        (fun x hx => beq_eq_false_iff_ne.mpr (h x hx))
    simp [Instance.update_group, hnone]
  · intro ce inst id f i g hfind hget hcron hen
    have hget2 : inst.groups[i]? = some g := by
      rw [← List.get?_eq_getElem?]
      exact hget
    simp [Instance.update_group, hfind, hget2, hcron.symm, hen.symm]
  · intro ce inst id f i g s jid hfind hget hne hen hp hs hjob
    have hget2 : inst.groups[i]? = some g := by
      rw [← List.get?_eq_getElem?]
      exact hget
    have hnc : g.cron ≠ f.cron := fun hh => hne hh.symm
    simp [Instance.update_group, hfind, hget2, hnc, hs, hjob, hen, hp]

/-- C8 witness: updating a nonexistent id on the empty store is `NotFound`. -/
theorem C8_update_group_semantics_witness :
    inst0.update_group ce0 "zzzzzzz"
      { title := "Water plants", description := "changed", enabled := true,
        cron := "0 0 9 * * *", next_date := none } = Except.error "NotFound" :=
  C8_update_group_semantics.1 ce0 inst0 "zzzzzzz"
    { title := "Water plants", description := "changed", enabled := true,
      cron := "0 0 9 * * *", next_date := none } (by simp [inst0])

end Reminders
